import Mathlib

/-!
# Verification of the enerBydev/enerby-dev GitHub-enrichment and blog core

Shallow embedding of the repository's core logic:

* `src/utils/github_api.rs` — repo metadata, static lookup table, URL parser;
* `src/utils/project_images.rs` — the second URL parser;
* `src/utils/github_cache.rs` — TTL cache (entries modelled as an
  association list, the ambient clock passed explicitly as `now`);
* `src/components/projects.rs` — project records and GitHub enrichment;
* `src/utils/markdown_loader.rs` — read-time computation;
* `src/components/blog.rs` — bilingual consolidation of markdown posts.

Rust `u64`/`u32`/`usize` values are modelled as `Nat` (no arithmetic in the
verified claims approaches the word size), `&str`/`String` as `String`,
`Vec<T>` as `List T`, `Option`/`Result` as `Option`/`Except`.
-/

namespace EnerbyDev

/-!
String primitives are re-implemented structurally over `List Char` so that
every definition evaluates by kernel reduction; each mirrors the
corresponding Rust `str` method used by the source.
-/

/-- ASCII lower-casing of a character, as Rust's `char::to_ascii_lowercase`
(and as used byte-wise by `str::eq_ignore_ascii_case`). -/
def asciiLower (c : Char) : Char :=
  if 'A' ≤ c ∧ c ≤ 'Z' then Char.ofNat (c.toNat + 32) else c

/-- Rust `str::to_lowercase` restricted to ASCII input (all keys and inputs in the
verified claims are ASCII, where Rust's Unicode lowering agrees with this). -/
def strLower (s : String) : String :=
  String.mk (s.data.map asciiLower)

/-- Rust `str::eq_ignore_ascii_case`. -/
def eqIgnoreAsciiCase (a b : String) : Bool :=
  strLower a == strLower b

/-- Rust `str::trim`: drop whitespace from both ends. -/
def strTrim (s : String) : String :=
  String.mk (((s.data.dropWhile Char.isWhitespace).reverse.dropWhile
    Char.isWhitespace).reverse)

/-- Rust `str::starts_with`. -/
def strStartsWith (s pre : String) : Bool :=
  pre.data.isPrefixOf s.data

/-- Rust `str::strip_prefix`: drop `pre` from the front when it is a prefix. -/
def strStripPrefix (s pre : String) : Option String :=
  if pre.data.isPrefixOf s.data then some (String.mk (s.data.drop pre.data.length))
  else none

/-- Helper of `splitOnChar`, accumulating the current segment reversed. -/
def splitOnCharAux (c : Char) : List Char → List Char → List (List Char)
  | [], acc => [acc.reverse]
  | x :: xs, acc =>
    if x == c then acc.reverse :: splitOnCharAux c xs []
    else splitOnCharAux c xs (x :: acc)

/-- Rust `str::split(c)`: split on every occurrence of `c`, keeping empty
segments (so `"a//b"` yields `["a", "", "b"]` and `""` yields `[""]`). -/
def splitOnChar (c : Char) (s : String) : List String :=
  (splitOnCharAux c s.data []).map String.mk

/-- Rust `str::is_empty`. -/
def strIsEmpty (s : String) : Bool :=
  s.data.isEmpty

-- ============================================================================
-- github_api.rs : GitHubRepoInfo, static data, get_repo_info, parse_github_url
-- ============================================================================

/-- The `GitHubRepoInfo` (github_api.rs). -/
structure GitHubRepoInfo where
  name : String
  full_name : String
  description : Option String
  homepage : Option String
  language : Option String
  stargazers_count : Nat
  forks_count : Nat
  fork : Bool
  archived : Bool
  topics : List String
  html_url : String
  deriving DecidableEq, Repr

/-- The `ApiError` (github_api.rs). -/
inductive ApiError where
  | NetworkError (msg : String)
  | NotFound
  | RateLimited
  | ParseError (msg : String)
  | Forbidden
  | ServerError (code : Nat)
  deriving DecidableEq, Repr

/-- The `GitHubRepoInfo::extract_homepage` (github_api.rs:165-176): the homepage,
trimmed, if non-empty and starting with `http://` or `https://`. -/
def GitHubRepoInfo.extract_homepage (r : GitHubRepoInfo) : Option String :=
  r.homepage.bind fun url =>
    let trimmed := strTrim url
    if strIsEmpty trimmed then none
    else if strStartsWith trimmed "http://" || strStartsWith trimmed "https://" then
      some trimmed
    else none

/-- The `get_static_repo_data` (github_api.rs:204-270): the compile-time repo table. -/
def get_static_repo_data : List GitHubRepoInfo :=
  [ { name := "enerby.dev"
      full_name := "enerBydev/enerby.dev"
      description := some "Personal portfolio website built with Rust + Dioxus"
      homepage := some "https://enerby.dev"
      language := some "Rust"
      stargazers_count := 0
      forks_count := 0
      fork := false
      archived := false
      topics := ["rust", "dioxus", "portfolio", "wasm"]
      html_url := "https://github.com/enerBydev/enerby.dev" },
    { name := "oc_diagdoc"
      full_name := "enerBydev/oc_diagdoc"
      description := some "command-line-utilities, text-processing, development-tools"
      homepage := some "https://www.google.com"
      language := some "Rust"
      stargazers_count := 0
      forks_count := 0
      fork := false
      archived := false
      topics := ["rust"]
      html_url := "https://github.com/enerBydev/oc_diagdoc" },
    { name := "nvim-config"
      full_name := "enerBydev/nvim-config"
      description := some "Personal Neovim configuration"
      homepage := none
      language := some "Lua"
      stargazers_count := 0
      forks_count := 0
      fork := false
      archived := false
      topics := ["neovim", "lua", "dotfiles"]
      html_url := "https://github.com/enerBydev/nvim-config" },
    { name := "rust_projects"
      full_name := "enerBydev/rust_projects"
      description := some "Collection of Rust learning projects"
      homepage := none
      language := some "Rust"
      stargazers_count := 0
      forks_count := 0
      fork := false
      archived := false
      topics := ["rust", "learning"]
      html_url := "https://github.com/enerBydev/rust_projects" } ]

deriving instance DecidableEq for Except

/-- The `get_repo_info` (github_api.rs:288-296): case-insensitive lookup in the
static table by `owner/repo`. -/
def get_repo_info (owner repo : String) : Except ApiError GitHubRepoInfo :=
  let full_name_lower := strLower (owner ++ "/" ++ repo)
  match get_static_repo_data.find? (fun r => strLower r.full_name == full_name_lower) with
  | some r => .ok r
  | none => .error .NotFound

/-- The `parse_github_url` (github_api.rs:344-366): strip a recognised host
prefix, split the remaining path on `/`, drop empty segments, and take the
first two segments as `(owner, repo)`. -/
def parse_github_url (github_url : String) : Option (String × String) :=
  let url := strTrim github_url
  let path? : Option String :=
    if strStartsWith url "https://github.com/" then
      strStripPrefix url "https://github.com/"
    else if strStartsWith url "http://github.com/" then
      strStripPrefix url "http://github.com/"
    else if strStartsWith url "github.com/" then
      strStripPrefix url "github.com/"
    else none
  path?.bind fun path =>
    match (splitOnChar '/' path).filter (fun s => !strIsEmpty s) with
    | owner :: repo :: _ => some (owner, repo)
    | _ => none

-- ============================================================================
-- project_images.rs : the second parse_github_url
-- ============================================================================

/-- Drop every leading `.git` (reversed: `tig.`) run from a reversed
character list — the effect of Rust's `trim_end_matches(".git")`. -/
def stripRevGit : List Char → List Char
  | 't' :: 'i' :: 'g' :: '.' :: rest => stripRevGit rest
  | l => l

/-- Rust `str::trim_end_matches('/')`: remove all trailing slashes. -/
def trimEndSlashes (s : String) : String :=
  String.mk ((s.data.reverse.dropWhile (fun c => c == '/')).reverse)

/-- Rust `str::trim_end_matches(".git")`: remove all trailing `.git` suffixes. -/
def trimEndGit (s : String) : String :=
  String.mk ((stripRevGit s.data.reverse).reverse)

/-- The `parse_github_url` (project_images.rs:89-108): normalise by removing
trailing `/` and `.git`, split on `/` (keeping empty segments), and if at
least five segments remain take the last two as `(owner, repo)`. -/
def parse_github_url_images (url : String) : Option (String × String) :=
  let normalized := trimEndGit (trimEndSlashes url)
  let parts := splitOnChar '/' normalized
  if parts.length ≥ 5 then
    match parts.reverse with
    | repo :: owner :: _ =>
      if !strIsEmpty owner && !strIsEmpty repo then some (owner, repo) else none
    | _ => none
  else none

-- ============================================================================
-- projects.rs : Project, EnrichedProject, enrich_project_with_github
-- ============================================================================

/-- The `ProjectStatus` (projects.rs:15-19). -/
inductive ProjectStatus where
  | Featured
  | Active
  | Archived
  deriving DecidableEq, Repr

/-- The `Project` (projects.rs:42-59); `&'static str` fields are modelled as
`String`. -/
structure Project where
  id : String
  title : String
  description_en : String
  description_es : String
  long_description_en : String
  long_description_es : String
  technologies : List String
  status : ProjectStatus
  github_url : Option String
  demo_url : Option String
  image_override : Option String
  image_fallback : String
  deriving DecidableEq, Repr

/-- The `DemoUrlSource` (projects.rs:207-214). -/
inductive DemoUrlSource where
  | Manual
  | GitHub
  | None
  deriving DecidableEq, Repr

/-- The `EnrichedProject` (projects.rs:167-187). -/
structure EnrichedProject where
  id : String
  title : String
  description_en : String
  description_es : String
  long_description_en : String
  long_description_es : String
  technologies : List String
  status : ProjectStatus
  github_url : Option String
  demo_url : Option String
  image_override : Option String
  image_fallback : String
  demo_url_source : DemoUrlSource
  deriving DecidableEq, Repr

/-- The `From<Project> for EnrichedProject` (projects.rs:216-237): copy every
field; `demo_url_source` is `Manual` when a demo URL is present, else `None`. -/
def EnrichedProject.fromProject (p : Project) : EnrichedProject :=
  { id := p.id
    title := p.title
    description_en := p.description_en
    description_es := p.description_es
    long_description_en := p.long_description_en
    long_description_es := p.long_description_es
    technologies := p.technologies
    status := p.status
    github_url := p.github_url
    demo_url := p.demo_url
    image_override := p.image_override
    image_fallback := p.image_fallback
    demo_url_source := if p.demo_url.isSome then .Manual else .None }

/-- The topics/technologies merge step of `enrich_project_with_github`
(projects.rs:292-299): start from the topics and append each existing
technology that is not already present, compared case-insensitively. -/
def mergeTopics (topics techs : List String) : List String :=
  techs.foldl
    (fun new_techs tech =>
      if new_techs.any (fun t => eqIgnoreAsciiCase t tech) then new_techs
      else new_techs ++ [tech])
    topics

/-- The `enrich_project_with_github` (projects.rs:249-308). -/
def enrich_project_with_github (project : Project) : EnrichedProject :=
  let enriched := EnrichedProject.fromProject project
  if enriched.demo_url.isSome then enriched
  else
    match project.github_url with
    | none => enriched
    | some github_url =>
      match parse_github_url github_url with
      | none => enriched
      | some (owner, repo) =>
        match get_repo_info owner repo with
        | .error _ => enriched
        | .ok repo_info =>
          let enriched :=
            match repo_info.extract_homepage with
            | some homepage =>
              { enriched with demo_url := some homepage, demo_url_source := .GitHub }
            | none => enriched
          let enriched :=
            match repo_info.description with
            | some desc =>
              if !strIsEmpty desc then { enriched with description_en := desc }
              else enriched
            | none => enriched
          if repo_info.topics ≠ [] then
            { enriched with technologies := mergeTopics repo_info.topics enriched.technologies }
          else enriched

-- ============================================================================
-- github_cache.rs : CacheEntry, GitHubCache, get / merge / serialization
-- ============================================================================

/-- The `DEFAULT_TTL_SECONDS` (github_cache.rs:37). -/
def DEFAULT_TTL_SECONDS : Nat := 3600

/-- The `CacheEntry<GitHubRepoInfo>` (github_cache.rs:48-55). Timestamps are
unix seconds (`u64`, modelled as `Nat`). -/
structure CacheEntry where
  data : GitHubRepoInfo
  cached_at : Nat
  ttl_seconds : Nat
  deriving DecidableEq, Repr

/-- The `CacheEntry::is_expired` (github_cache.rs:75-79). The source reads the
ambient clock `get_now_seconds()`; it is passed explicitly as `now`. -/
def CacheEntry.is_expired (e : CacheEntry) (now : Nat) : Bool :=
  now > e.cached_at + e.ttl_seconds

/-- The `GitHubCache` (github_cache.rs:98-105). The `HashMap<String, CacheEntry>`
is modelled as an association list; a `HashMap` always has pairwise-distinct
keys, stated where needed as `(entries.map Prod.fst).Nodup`. -/
structure GitHubCache where
  entries : List (String × CacheEntry)
  default_ttl : Nat
  deriving DecidableEq, Repr

/-- The `HashMap::get` on the association-list model: first entry with the key. -/
def lookupEntry (entries : List (String × CacheEntry)) (key : String) :
    Option CacheEntry :=
  (entries.find? (fun kv => kv.1 == key)).map Prod.snd

/-- The `HashMap::insert` on the association-list model: replace the first entry
with the key, or append. -/
def insertEntry (entries : List (String × CacheEntry)) (key : String)
    (e : CacheEntry) : List (String × CacheEntry) :=
  match entries with
  | [] => [(key, e)]
  | (k, v) :: rest =>
    if k == key then (k, e) :: rest else (k, v) :: insertEntry rest key e

/-- The `GitHubCache::make_key` (github_cache.rs:129-131). -/
def make_key (owner repo : String) : String :=
  strLower owner ++ "/" ++ strLower repo

/-- The `GitHubCache::get` (github_cache.rs:138-147): the entry for the
normalized key, unless absent or expired. -/
def GitHubCache.get (c : GitHubCache) (owner repo : String) (now : Nat) :
    Option GitHubRepoInfo :=
  (lookupEntry c.entries (make_key owner repo)).bind fun entry =>
    if entry.is_expired now then none else some entry.data

/-- The `GitHubCache::get_with_stale` (github_cache.rs:152-157). -/
def GitHubCache.get_with_stale (c : GitHubCache) (owner repo : String)
    (now : Nat) : Option (GitHubRepoInfo × Bool) :=
  (lookupEntry c.entries (make_key owner repo)).map fun entry =>
    (entry.data, entry.is_expired now)

/-- The `GitHubCache::set` (github_cache.rs:160-164): insert with the default
TTL, `cached_at` set to `now`. -/
def GitHubCache.set (c : GitHubCache) (owner repo : String)
    (data : GitHubRepoInfo) (now : Nat) : GitHubCache :=
  { c with entries := (insertEntry c.entries (make_key owner repo)
      { data := data, cached_at := now, ttl_seconds := c.default_ttl }) }

/-- The loop body of `GitHubCache::merge` (github_cache.rs:243-253): an
existing entry at least as new (`existing.cached_at >= entry.cached_at`) is
kept, otherwise the other cache's entry is inserted. -/
def mergeStep (acc : List (String × CacheEntry)) (kv : String × CacheEntry) :
    List (String × CacheEntry) :=
  match lookupEntry acc kv.1 with
  | some existing =>
    if existing.cached_at ≥ kv.2.cached_at then acc
    else insertEntry acc kv.1 kv.2
  | none => insertEntry acc kv.1 kv.2

/-- The `GitHubCache::merge` (github_cache.rs:242-254): fold the other cache's
entries into the receiver with `mergeStep`. -/
def GitHubCache.merge (c other : GitHubCache) : GitHubCache :=
  { c with entries := other.entries.foldl mergeStep c.entries }

-- ============================================================================
-- github_cache.rs persistence : to_json / from_json
-- ============================================================================

/-- JSON values, the target of `serde_json`. `to_json`/`from_json`
(github_cache.rs:226-233) are the serde-derived (de)serializers for
`GitHubCache`; they are embedded below as functions to and from this tree
(the concrete string rendering/parsing is `serde_json`'s and is bijective on
trees, so losslessness is settled at the tree level). -/
inductive Json where
  | null
  | bool (b : Bool)
  | num (n : Nat)
  | str (s : String)
  | arr (elems : List Json)
  | obj (fields : List (String × Json))

/-- Object field lookup, as serde's map-access during deserialization. -/
def Json.getField (fields : List (String × Json)) (name : String) : Option Json :=
  (fields.find? (fun kv => kv.1 == name)).map Prod.snd

/-- Serialization of `Option<String>`: `None` ↦ `null`, `Some s` ↦ string. -/
def encodeOptStr : Option String → Json
  | none => .null
  | some s => .str s

/-- Deserialization of `Option<String>`. -/
def decodeOptStr : Json → Option (Option String)
  | .null => some none
  | .str s => some (some s)
  | _ => none

/-- Deserialization of `String`. -/
def decodeStr : Json → Option String
  | .str s => some s
  | _ => none

/-- Deserialization of an unsigned integer. -/
def decodeNum : Json → Option Nat
  | .num n => some n
  | _ => none

/-- Deserialization of `bool`. -/
def decodeBool : Json → Option Bool
  | .bool b => some b
  | _ => none

/-- Deserialization of `Vec<String>`. -/
def decodeStrList : Json → Option (List String)
  | .arr xs => xs.mapM decodeStr
  | _ => none

/-- Serde-derived serialization of `GitHubRepoInfo` (github_api.rs:107-150). -/
def encodeRepoInfo (r : GitHubRepoInfo) : Json :=
  .obj
    [ ("name", .str r.name),
      ("full_name", .str r.full_name),
      ("description", encodeOptStr r.description),
      ("homepage", encodeOptStr r.homepage),
      ("language", encodeOptStr r.language),
      ("stargazers_count", .num r.stargazers_count),
      ("forks_count", .num r.forks_count),
      ("fork", .bool r.fork),
      ("archived", .bool r.archived),
      ("topics", .arr (r.topics.map .str)),
      ("html_url", .str r.html_url) ]

/-- Serde-derived deserialization of `GitHubRepoInfo`; the `#[serde(default)]`
fields fall back to their defaults when missing. -/
def decodeRepoInfo : Json → Option GitHubRepoInfo
  | .obj fields => do
    let name ← (Json.getField fields "name").bind decodeStr
    let full_name ← (Json.getField fields "full_name").bind decodeStr
    let description ←
      match Json.getField fields "description" with
      | some j => decodeOptStr j
      | none => some none
    let homepage ←
      match Json.getField fields "homepage" with
      | some j => decodeOptStr j
      | none => some none
    let language ←
      match Json.getField fields "language" with
      | some j => decodeOptStr j
      | none => some none
    let stargazers_count ←
      match Json.getField fields "stargazers_count" with
      | some j => decodeNum j
      | none => some 0
    let forks_count ←
      match Json.getField fields "forks_count" with
      | some j => decodeNum j
      | none => some 0
    let fork ←
      match Json.getField fields "fork" with
      | some j => decodeBool j
      | none => some false
    let archived ←
      match Json.getField fields "archived" with
      | some j => decodeBool j
      | none => some false
    let topics ←
      match Json.getField fields "topics" with
      | some j => decodeStrList j
      | none => some []
    let html_url ← (Json.getField fields "html_url").bind decodeStr
    pure
      { name := name, full_name := full_name, description := description,
        homepage := homepage, language := language,
        stargazers_count := stargazers_count, forks_count := forks_count,
        fork := fork, archived := archived, topics := topics,
        html_url := html_url }
  | _ => none

/-- Serde-derived serialization of `CacheEntry` (github_cache.rs:48-55). -/
def encodeEntry (e : CacheEntry) : Json :=
  .obj
    [ ("data", encodeRepoInfo e.data),
      ("cached_at", .num e.cached_at),
      ("ttl_seconds", .num e.ttl_seconds) ]

/-- Serde-derived deserialization of `CacheEntry`. -/
def decodeEntry : Json → Option CacheEntry
  | .obj fields => do
    let data ← (Json.getField fields "data").bind decodeRepoInfo
    let cached_at ← (Json.getField fields "cached_at").bind decodeNum
    let ttl_seconds ← (Json.getField fields "ttl_seconds").bind decodeNum
    pure { data := data, cached_at := cached_at, ttl_seconds := ttl_seconds }
  | _ => none

/-- The `GitHubCache::to_json` (github_cache.rs:226-228): the serde-derived
serialization of the cache (the entry map plus `default_ttl`). -/
def GitHubCache.to_json (c : GitHubCache) : Json :=
  .obj
    [ ("entries", .obj (c.entries.map (fun kv => (kv.1, encodeEntry kv.2)))),
      ("default_ttl", .num c.default_ttl) ]

/-- The `GitHubCache::from_json` (github_cache.rs:231-233): the serde-derived
deserialization; `default_ttl` has `#[serde(default = "default_ttl")]`. -/
def GitHubCache.from_json : Json → Option GitHubCache
  | .obj fields => do
    let entries ←
      match Json.getField fields "entries" with
      | some (.obj kvs) =>
        kvs.mapM (fun kv => (decodeEntry kv.2).map (fun e => (kv.1, e)))
      | _ => none
    let default_ttl ←
      match Json.getField fields "default_ttl" with
      | some j => decodeNum j
      | none => some DEFAULT_TTL_SECONDS
    pure { entries := entries, default_ttl := default_ttl }
  | _ => none

-- ============================================================================
-- markdown_loader.rs : read-time computation
-- ============================================================================

/-- Rust `str::split_whitespace().count()` on the character list: the number of
maximal non-whitespace runs. The flag records whether the previous character
was inside a word. -/
def wordCountAux : List Char → Bool → Nat
  | [], _ => 0
  | c :: cs, inWord =>
    if c.isWhitespace then wordCountAux cs false
    else if inWord then wordCountAux cs true
    else 1 + wordCountAux cs true

/-- Whitespace-separated word count of a string
(`content.split_whitespace().count()`, markdown_loader.rs:53). -/
def wordCount (s : String) : Nat :=
  wordCountAux s.data false

/-- The arithmetic of `calculate_read_time` (markdown_loader.rs:52-57) as a
function of the word count. `(wc as f32 / 200.0).ceil() as u8` equals the
integer ceiling saturated into `u8`: for `wc ≤ 2^24` the `f32` quotient is
correctly rounded with error far below the `1/200` gap to the nearest
integer, so its ceiling is the exact one, and the saturating `as u8` cast
clamps it to `255`; for larger `wc` both the float and the exact ceiling
exceed `255` and clamp to `255`. Then `.max(1)` applies. -/
def calcReadTimeFromWc (wc : Nat) : Nat :=
  max (min ((wc + 199) / 200) 255) 1

/-- The `calculate_read_time` (markdown_loader.rs:52-57). -/
def calculate_read_time (content : String) : Nat :=
  calcReadTimeFromWc (wordCount content)

/-- The `read_time_minutes` computation of `load_markdown_posts`
(markdown_loader.rs:82-84): `frontmatter.read_time.unwrap_or_else(|| calculate_read_time(body))`. -/
def read_time_minutes (fm_read_time : Option Nat) (body : String) : Nat :=
  match fm_read_time with
  | some t => t
  | none => calculate_read_time body

-- ============================================================================
-- blog.rs : bilingual consolidation of markdown posts
-- ============================================================================

/-- The `PostLanguage` (markdown_loader.rs:25-28). -/
inductive PostLanguage where
  | EN
  | ES
  deriving DecidableEq, Repr

/-- The `Frontmatter` (markdown_loader.rs:13-22). -/
structure Frontmatter where
  slug : String
  title : String
  date : String
  excerpt : String
  tags : List String
  featured : Bool
  read_time : Option Nat
  deriving DecidableEq, Repr

/-- The `MarkdownPost` (markdown_loader.rs:30-36). -/
structure MarkdownPost where
  frontmatter : Frontmatter
  content_html : String
  read_time_minutes : Nat
  language : PostLanguage
  file_slug : String
  deriving DecidableEq, Repr

/-- The `PostStatus` (blog.rs:16-19). -/
inductive PostStatus where
  | Published
  | Draft
  deriving DecidableEq, Repr

/-- The `BlogPost` (blog.rs:24-42). -/
structure BlogPost where
  slug : String
  title_en : String
  title_es : String
  excerpt_en : String
  excerpt_es : String
  content_en : String
  content_es : String
  date : String
  read_time : Nat
  tags : List String
  status : PostStatus
  featured : Bool
  deriving DecidableEq, Repr

/-- The per-group body of `get_blog_posts` (blog.rs:80-114): given the
variants sharing one `file_slug`, build a consolidated post from the EN
variant (ES fields fall back to EN when no ES variant exists), or drop the
group when no EN variant exists. -/
def consolidate_group (slug : String) (variants : List MarkdownPost) :
    Option BlogPost :=
  let en_variant := variants.find? (fun p => p.language == .EN)
  let es_variant := variants.find? (fun p => p.language == .ES)
  match en_variant with
  | some base =>
    let tags := base.frontmatter.tags
    let esFields :=
      match es_variant with
      | some es => (es.frontmatter.title, es.frontmatter.excerpt, es.content_html)
      | none => (base.frontmatter.title, base.frontmatter.excerpt, base.content_html)
    some
      { slug := slug
        title_en := base.frontmatter.title
        title_es := esFields.1
        excerpt_en := base.frontmatter.excerpt
        excerpt_es := esFields.2.1
        content_en := base.content_html
        content_es := esFields.2.2
        date := base.frontmatter.date
        read_time := base.read_time_minutes
        tags := tags
        status := .Published
        featured := base.frontmatter.featured }
  | none => none

/-- The consolidation pipeline of `get_blog_posts` (blog.rs:69-121) applied
to a grouping of the loaded posts: per-group consolidation, then sort by
date descending (the grouping itself is `HashMap` bucketing by `file_slug`). -/
def get_blog_posts_from (groups : List (String × List MarkdownPost)) :
    List BlogPost :=
  ((groups.filterMap (fun g => consolidate_group g.1 g.2)).mergeSort
    (fun a b => b.date ≤ a.date))

-- ============================================================================
-- Spec-side definitions (for refinement comparisons) and concrete test data
-- ============================================================================

/-- The technologies/topics merge as the specification words it (for
comparison with `mergeTopics` from the source): keep the existing
`technologies` entries in order at the front and append each topic that is
not already present, compared case-insensitively. -/
def mergeTopicsSpec (techs topics : List String) : List String :=
  techs ++ topics.filter (fun t => !techs.any (fun x => eqIgnoreAsciiCase x t))

/-- The amended merge policy stated independently of the source's fold:
starting from the topics, walk the existing technologies and append each one
that is not yet present, case-insensitively, in the list built so far. -/
def appendMissingTechs (acc : List String) : List String → List String
  | [] => acc
  | t :: rest =>
    if acc.any (fun x => eqIgnoreAsciiCase x t) then appendMissingTechs acc rest
    else appendMissingTechs (acc ++ [t]) rest

/-- The read-time formula as the specification words it (for comparison with
`calcReadTimeFromWc` from the source): `ceil(word_count / 200)`, minimum 1,
with no `u8` saturation. -/
def readTimeSpec (wc : Nat) : Nat :=
  max ((wc + 199) / 200) 1

/-- A body of `n` whitespace-separated words: `n` copies of `"w "`. -/
def repBody (n : Nat) : String :=
  String.mk (List.flatten (List.replicate n ['w', ' ']))

/-- A project whose GitHub lookup succeeds with a non-empty topics list
(`enerBydev/nvim-config`: topics `["neovim", "lua", "dotfiles"]`, no
homepage) and whose own technologies list is `["Lua"]`. -/
def exTopicsProject : Project :=
  { id := "test"
    title := "Test"
    description_en := "Test"
    description_es := "Test"
    long_description_en := "Test"
    long_description_es := "Test"
    technologies := ["Lua"]
    status := .Active
    github_url := some "https://github.com/enerBydev/nvim-config"
    demo_url := none
    image_override := none
    image_fallback := "x" }

/-- A project with a manual demo URL and a `github_url` whose lookup yields a
different homepage (`enerBydev/enerby.dev` ↦ `https://enerby.dev`), as in
the source's `test_enrich_project_keeps_manual_demo_url`. -/
def exManualProject : Project :=
  { exTopicsProject with
      github_url := some "https://github.com/enerBydev/enerby.dev"
      demo_url := some "https://manual.demo" }

/-- A project with no demo URL and a `github_url` whose lookup yields the
homepage `https://enerby.dev`. -/
def exHomepageProject : Project :=
  { exTopicsProject with
      github_url := some "https://github.com/enerBydev/enerby.dev" }

/-- A repo metadata value used in concrete cache states. -/
def exRepoInfo : GitHubRepoInfo :=
  { name := "repo"
    full_name := "owner/repo"
    description := some "Test repo"
    homepage := some "https://example.com"
    language := some "Rust"
    stargazers_count := 10
    forks_count := 2
    fork := false
    archived := false
    topics := ["test"]
    html_url := "https://github.com/owner/repo" }

/-- Cache A of the merge-precedence scenario: key `owner/repo` cached at 100. -/
def exCacheA : GitHubCache :=
  { entries := [("owner/repo", { data := exRepoInfo, cached_at := 100, ttl_seconds := 3600 })]
    default_ttl := 3600 }

/-- Cache B of the merge-precedence scenario: the same key cached at 200
with different data. -/
def exCacheB : GitHubCache :=
  { entries := [("owner/repo",
      { data := { exRepoInfo with stargazers_count := 99 }, cached_at := 200,
        ttl_seconds := 3600 })]
    default_ttl := 3600 }

/-- A cache with one fresh entry at `cached_at = 50`. -/
def exCacheFresh : GitHubCache :=
  { entries := [("owner/repo", { data := exRepoInfo, cached_at := 50, ttl_seconds := 10 })]
    default_ttl := 3600 }

/-- A Spanish-only markdown post (`file_slug` group with no EN variant). -/
def exEsPost : MarkdownPost :=
  { frontmatter :=
      { slug := "hola"
        title := "Hola"
        date := "2026-01-01"
        excerpt := "Resumen"
        tags := ["es"]
        featured := false
        read_time := some 3 }
    content_html := "<p>Hola</p>"
    read_time_minutes := 3
    language := .ES
    file_slug := "hola" }

/-- An English markdown post sharing no group with `exEsPost`. -/
def exEnPost : MarkdownPost :=
  { frontmatter :=
      { slug := "hello"
        title := "Hello"
        date := "2026-01-02"
        excerpt := "Summary"
        tags := ["en"]
        featured := true
        read_time := some 4 }
    content_html := "<p>Hello</p>"
    read_time_minutes := 4
    language := .EN
    file_slug := "hello" }

-- ============================================================================
-- Theorems
-- ============================================================================

/-- C2 counterexample: the claim fails on both parsers in the source. The
enrichment-module parser does not strip `.git` (it returns
`("owner", "repo.git")`); the image-module parser rejects the protocol-less
form and accepts `gitlab.com` (returning `("owner", "repo")` rather than
`None`). -/
theorem parse_github_url_claim_counterexample :
    parse_github_url "https://github.com/owner/repo.git" ≠ some ("owner", "repo") ∧
    parse_github_url_images "github.com/owner/repo" ≠ some ("owner", "repo") ∧
    parse_github_url_images "https://gitlab.com/owner/repo" ≠ none := by
  refine ⟨by decide, by decide, by decide⟩

/-- C2 (amended): the exact behavior of the two GitHub URL parsers on the
claim's inputs. The enrichment-module parser (`github_api.rs`) accepts the
`https`, `http` and protocol-less forms and a trailing `/`, rejects other
hosts, and keeps a trailing `.git` in the repo name; the image-module parser
(`project_images.rs`) strips trailing `/` and `.git`, but requires at least
five raw `/`-segments (so rejects the protocol-less form) and does not check
the host (so accepts `gitlab.com`). -/
theorem parse_github_url_behavior :
    parse_github_url "https://github.com/owner/repo" = some ("owner", "repo") ∧
    parse_github_url "http://github.com/owner/repo" = some ("owner", "repo") ∧
    parse_github_url "github.com/owner/repo" = some ("owner", "repo") ∧
    parse_github_url "https://github.com/owner/repo/" = some ("owner", "repo") ∧
    parse_github_url "https://github.com/owner/repo.git" = some ("owner", "repo.git") ∧
    parse_github_url "https://gitlab.com/owner/repo" = none ∧
    parse_github_url_images "https://github.com/owner/repo" = some ("owner", "repo") ∧
    parse_github_url_images "http://github.com/owner/repo" = some ("owner", "repo") ∧
    parse_github_url_images "https://github.com/owner/repo/" = some ("owner", "repo") ∧
    parse_github_url_images "https://github.com/owner/repo.git" = some ("owner", "repo") ∧
    parse_github_url_images "github.com/owner/repo" = none ∧
    parse_github_url_images "https://gitlab.com/owner/repo" = some ("owner", "repo") := by
  refine ⟨by decide, by decide, by decide, by decide, by decide, by decide,
    by decide, by decide, by decide, by decide, by decide, by decide⟩

/-- C1 counterexample: enriching a project with technologies `["Lua"]` from
`enerBydev/nvim-config` (topics `["neovim", "lua", "dotfiles"]`) yields the
topics at the front with the existing technology dropped as a
case-insensitive duplicate, not the claim's existing-entries-first order. -/
theorem topics_merge_order_counterexample :
    (enrich_project_with_github exTopicsProject).technologies
      = ["neovim", "lua", "dotfiles"] ∧
    mergeTopicsSpec exTopicsProject.technologies ["neovim", "lua", "dotfiles"]
      = ["Lua", "neovim", "dotfiles"] ∧
    (["neovim", "lua", "dotfiles"] : List String) ≠ ["Lua", "neovim", "dotfiles"] := by
  refine ⟨by decide, by decide, by decide⟩

/-- Helper: the source's fold over the existing technologies equals the
recursive formulation `appendMissingTechs`. -/
theorem mergeTopics_eq_appendMissingTechs (topics techs : List String) :
    mergeTopics topics techs = appendMissingTechs topics techs := by
  induction techs generalizing topics with
  | nil => rfl
  | cons t rest ih =>
    simp only [mergeTopics, List.foldl_cons, appendMissingTechs]
    split
    · exact ih topics
    · exact ih (topics ++ [t])

/-- C1 (amended): when the lookup succeeds with a non-empty topics list, the
enriched technologies list is the topics in source order at the front,
followed by those existing technologies entries not already present
(case-insensitively) in the list built so far. -/
theorem topics_merge_amended (p : Project) (url owner repo : String)
    (info : GitHubRepoInfo)
    (hdemo : p.demo_url = none)
    (hurl : p.github_url = some url)
    (hparse : parse_github_url url = some (owner, repo))
    (hinfo : get_repo_info owner repo = Except.ok info)
    (htopics : info.topics ≠ []) :
    (enrich_project_with_github p).technologies
      = appendMissingTechs info.topics p.technologies := by
  rw [← mergeTopics_eq_appendMissingTechs]
  unfold enrich_project_with_github EnrichedProject.fromProject
  simp only [hdemo, hurl, hparse, hinfo, Option.isSome_none]
  repeat' split
  all_goals simp_all

/-- C1 witness: the amended merge at the concrete project with technologies
`["Lua"]` and the `nvim-config` topics. -/
theorem topics_merge_amended_witness :
    (enrich_project_with_github exTopicsProject).technologies
      = appendMissingTechs ["neovim", "lua", "dotfiles"] ["Lua"] :=
  topics_merge_amended exTopicsProject "https://github.com/enerBydev/nvim-config"
    "enerBydev" "nvim-config" (get_static_repo_data.get ⟨2, by decide⟩)
    rfl rfl (by decide) (by decide) (by decide)

/-- C3: a manually set demo URL is never overwritten — enrichment returns it
unchanged with provenance `Manual`, whatever the `github_url` is. -/
theorem manual_demo_url_preserved (p : Project) (u : String)
    (h : p.demo_url = some u) :
    (enrich_project_with_github p).demo_url = some u ∧
    (enrich_project_with_github p).demo_url_source = DemoUrlSource.Manual := by
  simp [enrich_project_with_github, EnrichedProject.fromProject, h]

/-- C3 witness: the concrete project with `demo_url = "https://manual.demo"`
and a `github_url` whose lookup yields the homepage `https://enerby.dev`. -/
theorem manual_demo_url_preserved_witness :
    (enrich_project_with_github exManualProject).demo_url
      = some "https://manual.demo" ∧
    (enrich_project_with_github exManualProject).demo_url_source
      = DemoUrlSource.Manual :=
  manual_demo_url_preserved exManualProject "https://manual.demo" rfl

/-- C4: for a project with no demo URL whose GitHub URL parses and whose
lookup succeeds, a usable homepage (non-empty, `http(s)://` after trimming,
i.e. `extract_homepage = some h`) becomes the demo URL with provenance
`GitHub`; with no usable homepage the demo URL stays `none` with provenance
`None`. -/
theorem github_homepage_fills_demo (p : Project) (url owner repo : String)
    (info : GitHubRepoInfo)
    (hdemo : p.demo_url = none)
    (hurl : p.github_url = some url)
    (hparse : parse_github_url url = some (owner, repo))
    (hinfo : get_repo_info owner repo = Except.ok info) :
    (∀ h, info.extract_homepage = some h →
      (enrich_project_with_github p).demo_url = some h ∧
      (enrich_project_with_github p).demo_url_source = DemoUrlSource.GitHub) ∧
    (info.extract_homepage = none →
      (enrich_project_with_github p).demo_url = none ∧
      (enrich_project_with_github p).demo_url_source = DemoUrlSource.None) := by
  unfold enrich_project_with_github EnrichedProject.fromProject
  simp only [hdemo, hurl, hparse, hinfo, Option.isSome_none]
  constructor
  · intro h hh
    simp only [hh]
    repeat' split
    all_goals simp_all
  · intro hh
    simp only [hh]
    repeat' split
    all_goals simp_all

/-- C4 witness: both branches at concrete projects — `enerby.dev` has
homepage `https://enerby.dev`, `nvim-config` has none. -/
theorem github_homepage_fills_demo_witness :
    ((enrich_project_with_github exHomepageProject).demo_url
        = some "https://enerby.dev" ∧
      (enrich_project_with_github exHomepageProject).demo_url_source
        = DemoUrlSource.GitHub) ∧
    ((enrich_project_with_github exTopicsProject).demo_url = none ∧
      (enrich_project_with_github exTopicsProject).demo_url_source
        = DemoUrlSource.None) :=
  ⟨(github_homepage_fills_demo exHomepageProject
      "https://github.com/enerBydev/enerby.dev" "enerBydev" "enerby.dev"
      (get_static_repo_data.get ⟨0, by decide⟩)
      rfl rfl (by decide) (by decide)).1 "https://enerby.dev" (by decide),
   (github_homepage_fills_demo exTopicsProject
      "https://github.com/enerBydev/nvim-config" "enerBydev" "nvim-config"
      (get_static_repo_data.get ⟨2, by decide⟩)
      rfl rfl (by decide) (by decide)).2 (by decide)⟩

/-- C10: enrichment only ever changes `demo_url`, `demo_url_source`,
`description_en` and `technologies`; every other field of the result equals
the corresponding input field, whatever the parse and lookup outcomes. -/
theorem enrich_frame (p : Project) :
    (enrich_project_with_github p).id = p.id ∧
    (enrich_project_with_github p).title = p.title ∧
    (enrich_project_with_github p).status = p.status ∧
    (enrich_project_with_github p).github_url = p.github_url ∧
    (enrich_project_with_github p).description_es = p.description_es ∧
    (enrich_project_with_github p).long_description_en = p.long_description_en ∧
    (enrich_project_with_github p).long_description_es = p.long_description_es ∧
    (enrich_project_with_github p).image_override = p.image_override ∧
    (enrich_project_with_github p).image_fallback = p.image_fallback := by
  unfold enrich_project_with_github EnrichedProject.fromProject
  repeat' split
  all_goals simp_all

/-- Helper: looking up a key in the empty entry list. -/
theorem lookupEntry_nil (k : String) : lookupEntry [] k = none := rfl

/-- Helper: looking up a key in a cons entry list. -/
theorem lookupEntry_cons (k' : String) (v : CacheEntry)
    (rest : List (String × CacheEntry)) (k : String) :
    lookupEntry ((k', v) :: rest) k
      = if k' = k then some v else lookupEntry rest k := by
  by_cases h : k' = k
  · simp [lookupEntry, List.find?_cons, beq_iff_eq.mpr h, h]
  · simp [lookupEntry, List.find?_cons, beq_eq_false_iff_ne.mpr h, h]

/-- Helper: a key not among the entry keys looks up to `none`. -/
theorem lookupEntry_eq_none (l : List (String × CacheEntry)) (k : String)
    (h : k ∉ l.map Prod.fst) : lookupEntry l k = none := by
  induction l with
  | nil => rfl
  | cons kv rest ih =>
    obtain ⟨k', v⟩ := kv
    simp only [List.map_cons, List.mem_cons] at h
    push_neg at h
    rw [lookupEntry_cons, if_neg (Ne.symm h.1)]
    exact ih h.2

/-- Helper: inserting into the empty entry list. -/
theorem insertEntry_nil (k : String) (e : CacheEntry) :
    insertEntry [] k e = [(k, e)] := rfl

/-- Helper: inserting into a cons entry list. -/
theorem insertEntry_cons (k0 : String) (v : CacheEntry)
    (rest : List (String × CacheEntry)) (k : String) (e : CacheEntry) :
    insertEntry ((k0, v) :: rest) k e =
      if k0 = k then (k0, e) :: rest else (k0, v) :: insertEntry rest k e := by
  by_cases h : k0 = k
  · simp [insertEntry, beq_iff_eq.mpr h, h]
  · simp [insertEntry, beq_eq_false_iff_ne.mpr h, h]

/-- Helper: looking up the inserted key yields the inserted entry. -/
theorem lookupEntry_insertEntry_self (l : List (String × CacheEntry))
    (k : String) (e : CacheEntry) :
    lookupEntry (insertEntry l k e) k = some e := by
  induction l with
  | nil => rw [insertEntry_nil, lookupEntry_cons, if_pos rfl]
  | cons kv rest ih =>
    obtain ⟨k0, v⟩ := kv
    rw [insertEntry_cons]
    by_cases h : k0 = k
    · rw [if_pos h, lookupEntry_cons, if_pos h]
    · rw [if_neg h, lookupEntry_cons, if_neg h]
      exact ih

/-- Helper: inserting one key leaves the lookup of any other key unchanged. -/
theorem lookupEntry_insertEntry_ne (l : List (String × CacheEntry))
    (k k' : String) (e : CacheEntry) (h : k' ≠ k) :
    lookupEntry (insertEntry l k e) k' = lookupEntry l k' := by
  induction l with
  | nil =>
    rw [insertEntry_nil, lookupEntry_cons, if_neg (Ne.symm h), lookupEntry_nil]
  | cons kv rest ih =>
    obtain ⟨k0, v⟩ := kv
    rw [insertEntry_cons]
    by_cases h0 : k0 = k
    · subst h0
      rw [if_pos rfl, lookupEntry_cons, lookupEntry_cons,
        if_neg (Ne.symm h), if_neg (Ne.symm h)]
    · rw [if_neg h0, lookupEntry_cons, lookupEntry_cons, ih]

/-- Helper: a merge step for one key leaves other keys unchanged. -/
theorem lookupEntry_mergeStep_ne (acc : List (String × CacheEntry))
    (kv : String × CacheEntry) (K : String) (h : K ≠ kv.1) :
    lookupEntry (mergeStep acc kv) K = lookupEntry acc K := by
  unfold mergeStep
  cases hl : lookupEntry acc kv.1 with
  | none => exact lookupEntry_insertEntry_ne _ _ _ _ h
  | some ex =>
    by_cases hc : ex.cached_at ≥ kv.2.cached_at
    · simp [hc]
    · simp only [hc, if_false]
      exact lookupEntry_insertEntry_ne _ _ _ _ h

/-- Helper: the effect of a merge step on its own key. -/
theorem lookupEntry_mergeStep_self (acc : List (String × CacheEntry))
    (kv : String × CacheEntry) :
    lookupEntry (mergeStep acc kv) kv.1 =
      match lookupEntry acc kv.1 with
      | some existing =>
        some (if existing.cached_at ≥ kv.2.cached_at then existing else kv.2)
      | none => some kv.2 := by
  unfold mergeStep
  cases h : lookupEntry acc kv.1 with
  | none => simp [lookupEntry_insertEntry_self]
  | some ex =>
    by_cases hc : ex.cached_at ≥ kv.2.cached_at
    · simp [h, hc]
    · simp [hc, lookupEntry_insertEntry_self]

/-- Helper: folding merge steps over keys not containing `K` leaves `K`'s
lookup unchanged. -/
theorem lookupEntry_foldl_not_mem (bs acc : List (String × CacheEntry))
    (K : String) (h : K ∉ bs.map Prod.fst) :
    lookupEntry (bs.foldl mergeStep acc) K = lookupEntry acc K := by
  induction bs generalizing acc with
  | nil => rfl
  | cons b rest ih =>
    simp only [List.map_cons, List.mem_cons] at h
    push_neg at h
    rw [List.foldl_cons, ih _ h.2, lookupEntry_mergeStep_ne _ _ _ h.1]

/-- Helper: the per-key outcome of folding all merge steps, for a
duplicate-free other cache. -/
theorem lookupEntry_mergeFold (bs acc : List (String × CacheEntry))
    (K : String) (hnd : (bs.map Prod.fst).Nodup) :
    lookupEntry (bs.foldl mergeStep acc) K =
      match lookupEntry bs K, lookupEntry acc K with
      | some eB, some eA =>
        some (if eA.cached_at ≥ eB.cached_at then eA else eB)
      | some eB, none => some eB
      | none, o => o := by
  induction bs generalizing acc with
  | nil =>
    cases h : lookupEntry acc K <;> simp [lookupEntry_nil, h]
  | cons b rest ih =>
    obtain ⟨k, e⟩ := b
    simp only [List.map_cons, List.nodup_cons] at hnd
    rw [List.foldl_cons]
    by_cases hk : k = K
    · subst hk
      rw [lookupEntry_foldl_not_mem rest _ k hnd.1, lookupEntry_cons, if_pos rfl]
      rw [lookupEntry_mergeStep_self acc (k, e)]
      cases h : lookupEntry acc k <;> simp
    · rw [ih (mergeStep acc (k, e)) hnd.2, lookupEntry_cons, if_neg hk,
        lookupEntry_mergeStep_ne acc (k, e) K (Ne.symm hk)]

/-- C6: for a key present in both caches (with the `HashMap` invariant of
duplicate-free keys), merge keeps the entry with the larger `cached_at`, the
receiver's entry on an exact tie, and for distinct timestamps the surviving
entry is the same in either merge direction. -/
theorem merge_newer_entry_wins (A B : GitHubCache) (K : String)
    (eA eB : CacheEntry)
    (hAnd : (A.entries.map Prod.fst).Nodup)
    (hBnd : (B.entries.map Prod.fst).Nodup)
    (hA : lookupEntry A.entries K = some eA)
    (hB : lookupEntry B.entries K = some eB) :
    lookupEntry (A.merge B).entries K
      = some (if eB.cached_at > eA.cached_at then eB else eA) ∧
    (eA.cached_at ≠ eB.cached_at →
      lookupEntry (A.merge B).entries K = lookupEntry (B.merge A).entries K) := by
  have h1 := lookupEntry_mergeFold B.entries A.entries K hBnd
  have h2 := lookupEntry_mergeFold A.entries B.entries K hAnd
  rw [hA, hB] at h1 h2
  have hAB : (A.merge B).entries = B.entries.foldl mergeStep A.entries := rfl
  have hBA : (B.merge A).entries = A.entries.foldl mergeStep B.entries := rfl
  constructor
  · rw [hAB, h1]
    by_cases hc : eA.cached_at ≥ eB.cached_at
    · simp [hc, show ¬(eB.cached_at > eA.cached_at) from by omega]
    · simp [hc, show eB.cached_at > eA.cached_at from by omega]
  · intro hne
    rw [hAB, hBA, h1, h2]
    by_cases hc : eA.cached_at ≥ eB.cached_at
    · simp [hc, show ¬(eB.cached_at ≥ eA.cached_at) from by omega]
    · simp [hc, show eB.cached_at ≥ eA.cached_at from by omega]

/-- C6 witness: caches A (`cached_at = 100`) and B (`cached_at = 200`) on
the shared key `owner/repo`: B's entry survives and the merge direction does
not change the surviving entry. -/
theorem merge_newer_entry_wins_witness :
    lookupEntry (exCacheA.merge exCacheB).entries "owner/repo"
      = some { data := { exRepoInfo with stargazers_count := 99 },
               cached_at := 200, ttl_seconds := 3600 } ∧
    lookupEntry (exCacheA.merge exCacheB).entries "owner/repo"
      = lookupEntry (exCacheB.merge exCacheA).entries "owner/repo" := by
  have h := merge_newer_entry_wins exCacheA exCacheB "owner/repo"
    { data := exRepoInfo, cached_at := 100, ttl_seconds := 3600 }
    { data := { exRepoInfo with stargazers_count := 99 },
      cached_at := 200, ttl_seconds := 3600 }
    (by decide) (by decide) (by decide) (by decide)
  exact ⟨by rw [h.1]; decide, h.2 (by decide)⟩

/-- C5: `get` returns `none` exactly when the entry for the normalized key
is absent or expired (`now > cached_at + ttl_seconds`); in particular, for
`ttl > 0` (and `now` large enough for the subtraction), an entry cached at
`now - ttl - 1` is expired while one cached at `now` is not. -/
theorem cache_get_none_iff_absent_or_expired (c : GitHubCache)
    (owner repo : String) (now ttl : Nat)
    (httl : 0 < ttl) (hnow : ttl + 1 ≤ now) :
    (c.get owner repo now = none ↔
      lookupEntry c.entries (make_key owner repo) = none ∨
      ∃ e, lookupEntry c.entries (make_key owner repo) = some e ∧
        now > e.cached_at + e.ttl_seconds) ∧
    (∀ e : CacheEntry, e.cached_at = now - ttl - 1 → e.ttl_seconds = ttl →
      e.is_expired now = true) ∧
    (∀ e : CacheEntry, e.cached_at = now → e.is_expired now = false) := by
  refine ⟨?_, ?_, ?_⟩
  · unfold GitHubCache.get
    cases h : lookupEntry c.entries (make_key owner repo) with
    | none => simp [h]
    | some e =>
      by_cases hgt : now > e.cached_at + e.ttl_seconds
      · simp [h, CacheEntry.is_expired, hgt]
      · simp [h, CacheEntry.is_expired, hgt]
  · intro e h1 h2
    simp only [CacheEntry.is_expired, h1, h2, decide_eq_true_eq]
    omega
  · intro e h1
    simp only [CacheEntry.is_expired, h1, decide_eq_false_iff_not]
    omega

/-- C5 witness: the cache-expiry facts at `now = 100`, `ttl = 30` and a
concrete cache. -/
theorem cache_get_none_iff_absent_or_expired_witness :
    ({ data := exRepoInfo, cached_at := 69, ttl_seconds := 30 } :
        CacheEntry).is_expired 100 = true ∧
    ({ data := exRepoInfo, cached_at := 100, ttl_seconds := 30 } :
        CacheEntry).is_expired 100 = false :=
  ⟨(cache_get_none_iff_absent_or_expired exCacheFresh "owner" "repo" 100 30
      (by decide) (by decide)).2.1
      { data := exRepoInfo, cached_at := 69, ttl_seconds := 30 }
      (by decide) rfl,
   (cache_get_none_iff_absent_or_expired exCacheFresh "owner" "repo" 100 30
      (by decide) (by decide)).2.2
      { data := exRepoInfo, cached_at := 100, ttl_seconds := 30 } rfl⟩

/-- C7: a `file_slug` group of loaded markdown posts produces a consolidated
blog post exactly when it contains an EN variant; in particular a group of
only ES variants is dropped (yields `none`, not an error). -/
theorem consolidation_requires_en (slug : String)
    (variants : List MarkdownPost) :
    ((consolidate_group slug variants).isSome = true ↔
      ∃ p ∈ variants, p.language = PostLanguage.EN) ∧
    ((∀ p ∈ variants, p.language = PostLanguage.ES) →
      consolidate_group slug variants = none) := by
  constructor
  · unfold consolidate_group
    cases h : variants.find? (fun p => p.language == PostLanguage.EN) with
    | none =>
      simp only [h, Option.isSome_none, Bool.false_eq_true, false_iff]
      rintro ⟨p, hp, hlang⟩
      have := List.find?_eq_none.mp h p hp
      simp [hlang] at this
    | some base =>
      simp only [h, Option.isSome_some, true_iff]
      refine ⟨base, List.mem_of_find?_eq_some h, ?_⟩
      have := List.find?_some h
      simpa using this
  · intro hall
    unfold consolidate_group
    cases h : variants.find? (fun p => p.language == PostLanguage.EN) with
    | none => simp [h]
    | some base =>
      exfalso
      have hmem := List.mem_of_find?_eq_some h
      have hpred := List.find?_some h
      have hES := hall base hmem
      rw [hES] at hpred
      simp at hpred

/-- C7 witness: a group holding only the Spanish variant yields no
consolidated post. -/
theorem consolidation_requires_en_witness :
    consolidate_group "hola" [exEsPost] = none :=
  (consolidation_requires_en "hola" [exEsPost]).2 (by decide)

/-- Helper: the word count of `m` repetitions of `"w "`. -/
theorem wordCountAux_rep (m : Nat) :
    wordCountAux (List.flatten (List.replicate m ['w', ' '])) false = m := by
  induction m with
  | zero => rfl
  | succ k ih =>
    rw [List.replicate_succ, List.flatten_cons]
    show wordCountAux ('w' :: ' ' :: (List.replicate k ['w', ' ']).flatten)
      false = k + 1
    rw [wordCountAux, if_neg (by decide), if_neg (by decide)]
    rw [wordCountAux, if_pos (by decide)]
    rw [ih]
    omega

/-- Helper: `repBody n` has exactly `n` whitespace-separated words. -/
theorem wordCount_repBody (n : Nat) : wordCount (repBody n) = n :=
  wordCountAux_rep n

/-- C8 counterexample: a body of exactly 51001 words computes
`read_time_minutes = 255` (the `u8` saturation of the cast), while the
claim's `ceil(word_count / 200)`-with-minimum-1 formula gives 256. -/
theorem read_time_saturation_counterexample :
    read_time_minutes none (repBody 51001) = 255 ∧
    readTimeSpec (wordCount (repBody 51001)) = 256 := by
  constructor
  · show calcReadTimeFromWc (wordCount (repBody 51001)) = 255
    rw [wordCount_repBody]
    decide
  · rw [wordCount_repBody]
    decide

/-- C8 (amended): `read_time_minutes` is the frontmatter value when present;
otherwise it is `ceil(word_count / 200)` with minimum 1 for word counts up
to 51000, and saturates at 255 (`u8::MAX`) beyond; bodies of exactly 50,
400 and 1000 words give 1, 2 and 5. -/
theorem read_time_amended (fm : Option Nat) (body : String) :
    (∀ t, fm = some t → read_time_minutes fm body = t) ∧
    (fm = none → wordCount body ≤ 51000 →
      read_time_minutes fm body = readTimeSpec (wordCount body)) ∧
    (fm = none → 51000 < wordCount body →
      read_time_minutes fm body = 255) ∧
    read_time_minutes none (repBody 50) = 1 ∧
    read_time_minutes none (repBody 400) = 2 ∧
    read_time_minutes none (repBody 1000) = 5 := by
  refine ⟨?_, ?_, ?_, ?_, ?_, ?_⟩
  · rintro t rfl
    rfl
  · rintro rfl hle
    show calcReadTimeFromWc (wordCount body) = readTimeSpec (wordCount body)
    unfold calcReadTimeFromWc readTimeSpec
    have h : (wordCount body + 199) / 200 ≤ 255 := by
      calc (wordCount body + 199) / 200 ≤ (51000 + 199) / 200 :=
            Nat.div_le_div_right (by omega)
        _ = 255 := by decide
    omega
  · rintro rfl hgt
    show calcReadTimeFromWc (wordCount body) = 255
    unfold calcReadTimeFromWc
    have h : 256 ≤ (wordCount body + 199) / 200 := by
      calc (256 : Nat) = (51001 + 199) / 200 := by decide
        _ ≤ (wordCount body + 199) / 200 := Nat.div_le_div_right (by omega)
    omega
  · show calcReadTimeFromWc (wordCount (repBody 50)) = 1
    rw [wordCount_repBody]
    decide
  · show calcReadTimeFromWc (wordCount (repBody 400)) = 2
    rw [wordCount_repBody]
    decide
  · show calcReadTimeFromWc (wordCount (repBody 1000)) = 5
    rw [wordCount_repBody]
    decide

/-- C8 witness: the frontmatter value is used verbatim when present. -/
theorem read_time_amended_witness :
    read_time_minutes (some 7) (repBody 3) = 7 :=
  (read_time_amended (some 7) (repBody 3)).1 7 rfl

/-- Helper: `Option<String>` encoding/decoding round-trips. -/
theorem decodeOptStr_encodeOptStr (o : Option String) :
    decodeOptStr (encodeOptStr o) = some o := by cases o <;> rfl

/-- Helper: decoding an encoded string list, with the traversal accumulator
made explicit. -/
theorem mapM_loop_decodeStr (l acc : List String) :
    List.mapM.loop decodeStr (l.map Json.str) acc = some (acc.reverse ++ l) := by
  induction l generalizing acc with
  | nil => simp [List.mapM.loop]
  | cons s rest ih =>
    simp [List.mapM.loop, decodeStr, ih (s :: acc)]

/-- Helper: `GitHubRepoInfo` encoding/decoding round-trips. -/
theorem decodeRepoInfo_encodeRepoInfo (r : GitHubRepoInfo) :
    decodeRepoInfo (encodeRepoInfo r) = some r := by
  obtain ⟨n, fn, d, hp, lg, sc, fc, fk, ar, tp, hu⟩ := r
  simp [encodeRepoInfo, decodeRepoInfo, Json.getField, List.find?, decodeStr,
    decodeNum, decodeBool, decodeStrList, decodeOptStr_encodeOptStr,
    mapM_loop_decodeStr]

/-- Helper: `CacheEntry` encoding/decoding round-trips. -/
theorem decodeEntry_encodeEntry (e : CacheEntry) :
    decodeEntry (encodeEntry e) = some e := by
  obtain ⟨d, ca, ttl⟩ := e
  simp [encodeEntry, decodeEntry, Json.getField, List.find?, decodeNum,
    decodeRepoInfo_encodeRepoInfo]

/-- Helper: decoding an encoded entry map, with the traversal accumulator
made explicit. -/
theorem mapM_loop_decodeEntry (kvs acc : List (String × CacheEntry)) :
    List.mapM.loop (fun kv => (decodeEntry kv.2).map (fun e => (kv.1, e)))
      (kvs.map (fun kv => (kv.1, encodeEntry kv.2))) acc
      = some (acc.reverse ++ kvs) := by
  induction kvs generalizing acc with
  | nil => simp [List.mapM.loop]
  | cons kv rest ih =>
    simp [List.mapM.loop, decodeEntry_encodeEntry, ih (kv :: acc)]

/-- C9: serializing a cache and deserializing the result is lossless — it
returns exactly the original entry map (same keys and, per key, the same
data, `cached_at` and `ttl_seconds`) and the same `default_ttl`. -/
theorem cache_json_roundtrip (c : GitHubCache) :
    GitHubCache.from_json (GitHubCache.to_json c) = some c := by
  obtain ⟨entries, default_ttl⟩ := c
  simp [GitHubCache.to_json, GitHubCache.from_json, Json.getField, List.find?,
    decodeNum]
  rw [mapM_loop_decodeEntry entries []]
  rfl

end EnerbyDev
